import Mathlib

/-!
A shallow embedding of `src/sfc/sfc.py` (the "simple file configuration"
loader) and proofs about it.

Modelling conventions:
* Python `None` is `Value.none`; other runtime values are `Value.str`,
  `Value.int`, or `Value.obj tag arg` for results of external-library calls
  (`base64.b64decode`, `json.loads`, `re.compile`, `client.fetch_guild`,
  `client.fetch_channel`), which the claims never inspect.
* Python dicts are association lists with insertion-order update-in-place
  (`dget` / `dset`), matching `dict.get`, `dict.__getitem__`, `in ... .keys()`
  and `{**a, **b}` merge semantics for lookup.
* A registry value in `SFC.types` is either a `(constructor, bool)` pair or a
  bare function (`TypeEntry.bare`): the source stores the bare lambda
  `NONE_TYPE` directly under the key "None".  Tuple-unpacking a bare function
  raises `TypeError` in Python; `unpackEntry` models this.
* Exceptions are modelled by `Except PyErr`; a constructor may itself raise.
  `asyncio` coroutines are modelled by `CtorResult.coro`: the engine awaits
  each coroutine immediately, in file order, before touching the next line,
  so awaiting is simply unwrapping (`awaitValue`).
* `str.strip` and the regex class `\s` are modelled over the ASCII whitespace
  characters; the claims involve no other whitespace.
* The file read (`open` / `readlines`) is an external collaborator: `reload`
  receives the list of raw lines directly.
-/

/-- Whitespace as recognised by `str.strip` and the regex class `\s`
(ASCII part). -/
def pyIsSpace (c : Char) : Bool :=
  c = ' ' || c = '\t' || c = '\n' || c = '\r' || c = '\x0b' || c = '\x0c'

/-- Python `str.strip`: drop leading and trailing whitespace. -/
def pyStripL (l : List Char) : List Char :=
  ((l.dropWhile pyIsSpace).reverse.dropWhile pyIsSpace).reverse

/-- The test `not line or line.startswith("#")` applied to a stripped line. -/
def skipTest : List Char → Bool
  | [] => true
  | c :: _ => c = '#'

/-- Character class `[a-z0-9_.]` of the key group of `_LINE_PATTERN`. -/
def keyChar (c : Char) : Bool :=
  c.isLower || c.isDigit || c = '_' || c = '.'

/-- Character class `[a-zA-Z0-9_]` of the type-name group of `_LINE_PATTERN`. -/
def typeChar (c : Char) : Bool :=
  c.isAlpha || c.isDigit || c = '_'

/-- The regex `_LINE_PATTERN = ([a-z0-9_.]+)\s*:\s*([a-zA-Z0-9_]+)\s*=\s*(.+)`
applied with `re.match` (anchored at the start of the line).  Since none of
the character classes overlap `:` , `=` or whitespace, the regex is
deterministic maximal-munch, which this function implements directly; the
final `\s*` never backtracks on a stripped line because a stripped line does
not end in whitespace. -/
def lineMatchCore (cs : List Char) : Option (List Char × List Char × List Char) :=
  let k := cs.takeWhile keyChar
  if k.isEmpty then none else
  match (cs.dropWhile keyChar).dropWhile pyIsSpace with
  | ':' :: r2 =>
    let r3 := r2.dropWhile pyIsSpace
    let t := r3.takeWhile typeChar
    if t.isEmpty then none else
    match (r3.dropWhile typeChar).dropWhile pyIsSpace with
    | '=' :: r5 =>
      let v := r5.dropWhile pyIsSpace
      if v.isEmpty then none else some (k, t, v)
    | _ => none
  | _ => none

/-- String-level wrapper around `lineMatchCore`, the model of
`_LINE_PATTERN.match(line).groups()`. -/
def lineMatch (s : String) : Option (String × String × String) :=
  (lineMatchCore s.data).map fun p => (String.mk p.1, String.mk p.2.1, String.mk p.2.2)

/-- Modelled from the spec: "value is the remainder of the line after the
first `=`" — the comparator for the raw-value-capture claim, written from the
spec's words rather than from the source. -/
def remAfterFirstEq : List Char → Option (List Char)
  | [] => none
  | c :: rest => if c = '=' then some rest else remAfterFirstEq rest

/-- Runtime values.  `obj tag arg` stands for the result of an external
library call that the engine never inspects. -/
inductive Value where
  | none
  | str (s : String)
  | int (n : Int)
  | obj (tag : String) (arg : String)
deriving Repr, DecidableEq

/-- Python exceptions, by class and message. -/
inductive PyErr where
  | valueError (msg : String)
  | typeError (msg : String)
  | keyError (msg : String)
deriving Repr, DecidableEq

/-- What calling a type constructor produces: a plain value or a coroutine
(`asyncio.iscoroutine` is true of the latter, and `reload` awaits it). -/
inductive CtorResult where
  | immediate (v : Value)
  | coro (v : Value)
deriving Repr, DecidableEq

/-- The `if asyncio.iscoroutine(value): value = await value` step. -/
def awaitValue : CtorResult → Value
  | .immediate v => v
  | .coro v => v

/-- A type constructor: a callable taking the raw value text and the opaque
`application_data`, possibly raising, possibly returning a coroutine. -/
def Ctor : Type := String → Value → Except PyErr CtorResult

/-- A value of the `SFC.types` dict: either a `(constructor, post_ready)`
tuple, or a bare function — the shape the source actually stores for the
built-in "None" entry (`NONE_TYPE`). -/
inductive TypeEntry where
  | tup (c : Ctor) (post_ready : Bool)
  | bare (c : Ctor)

/-- Tuple-unpacking `type_constructor, is_post_ready = entry`: succeeds on a
pair, raises `TypeError` on a bare function. -/
def unpackEntry : TypeEntry → Except PyErr (Ctor × Bool)
  | .tup c b => .ok (c, b)
  | .bare _ => .error (.typeError "cannot unpack non-iterable function object")

/-- Python `dict` lookup on an association list with unique keys. -/
def dget {α : Type} : List (String × α) → String → Option α
  | [], _ => Option.none
  | (k, v) :: rest, key => if k = key then some v else dget rest key

/-- Python `dict` assignment: update in place if the key is present
(preserving insertion order), otherwise append. -/
def dset {α : Type} : List (String × α) → String → α → List (String × α)
  | [], key, v => [(key, v)]
  | (k, w) :: rest, key, v =>
    if k = key then (k, v) :: rest else (k, w) :: dset rest key v

/-- The merge `{**a, **b}`: entries of `b` override same-named entries of
`a` and otherwise append in order. -/
def dmerge {α : Type} (a b : List (String × α)) : List (String × α) :=
  b.foldl (fun acc p => dset acc p.1 p.2) a

/-- Python `int(...)` digit run with single underscores between digits,
accumulating onto `acc`. -/
def digitsCore : List Char → Nat → Option Nat
  | [], acc => some acc
  | '_' :: c :: rest, acc =>
    if c.isDigit then digitsCore rest (acc * 10 + (c.toNat - 48)) else Option.none
  | c :: rest, acc =>
    if c.isDigit then digitsCore rest (acc * 10 + (c.toNat - 48)) else Option.none

/-- Nonempty digit run starting with a digit. -/
def pyIntCore : List Char → Option Nat
  | [] => Option.none
  | c :: rest => if c.isDigit then digitsCore rest (c.toNat - 48) else Option.none

/-- Python `int(str)`: strip whitespace, optional sign, digits (ASCII). -/
def pyInt (s : String) : Option Int :=
  match pyStripL s.data with
  | '+' :: rest => (pyIntCore rest).map Int.ofNat
  | '-' :: rest => (pyIntCore rest).map fun n => -(Int.ofNat n)
  | cs => (pyIntCore cs).map Int.ofNat

/-- The bare lambda `NONE_TYPE = lambda _, _1: None`. -/
def NONE_TYPE : Ctor := fun _ _ => .ok (.immediate Value.none)

/-- Built-in `str` type: `lambda v, _: str(v)` (identity on a string). -/
def strCtor : Ctor := fun v _ => .ok (.immediate (Value.str v))

/-- Built-in `Base64` type: `base64.b64decode(v).decode()`, an external
library call modelled as an opaque tagged result. -/
def base64Ctor : Ctor := fun v _ => .ok (.immediate (Value.obj "b64decode" v))

/-- Built-in `int` type: `lambda v, _: int(v)`. -/
def intCtor : Ctor := fun v _ =>
  match pyInt v with
  | some n => .ok (.immediate (Value.int n))
  | Option.none => .error (.valueError ("invalid literal for int() with base 10: " ++ v))

/-- Built-in `JSON` type: `json.loads(v)`, modelled as an opaque result. -/
def jsonCtor : Ctor := fun v _ => .ok (.immediate (Value.obj "json.loads" v))

/-- Built-in `Regex` type: `re.compile(v)`, modelled as an opaque result. -/
def regexCtor : Ctor := fun v _ => .ok (.immediate (Value.obj "re.compile" v))

/-- The coroutine function `guild_fetcher(v, c) = await c.fetch_guild(int(v))`;
the fetched entity is opaque.  `int(v)` raises inside the coroutine, which the
engine awaits immediately, so the failure is modelled at the call. -/
def guild_fetcher : Ctor := fun v _ =>
  match pyInt v with
  | some n => .ok (.coro (Value.obj "fetch_guild" (toString n)))
  | Option.none => .error (.valueError ("invalid literal for int() with base 10: " ++ v))

/-- The coroutine function `channel_fetcher(v, c) = await c.fetch_channel(int(v))`. -/
def channel_fetcher : Ctor := fun v _ =>
  match pyInt v with
  | some n => .ok (.coro (Value.obj "fetch_channel" (toString n)))
  | Option.none => .error (.valueError ("invalid literal for int() with base 10: " ++ v))

/-- The source's `DEFAULT_TYPES` dict, in declaration order.  Note that every
entry is a `(constructor, bool)` tuple except "None", which is the bare
function `NONE_TYPE` — exactly as in the source. -/
def DEFAULT_TYPES : List (String × TypeEntry) :=
  [("str", .tup strCtor false),
   ("Base64", .tup base64Ctor false),
   ("Guild", .tup guild_fetcher true),
   ("Channel", .tup channel_fetcher true),
   ("int", .tup intCtor false),
   ("JSON", .tup jsonCtor false),
   ("Regex", .tup regexCtor false),
   ("None", .bare NONE_TYPE)]

/-- The state of class `SFC`.  `file_path` is dropped: the file read is an
external collaborator and `reload` receives the raw lines directly. -/
structure SFC where
  application_data : Value
  data : List (String × Value)
  types : List (String × TypeEntry)
  ignore_unknown_types : Bool

/-- The constructor `SFC.__init__`: empty store, registry merged from
`DEFAULT_TYPES` and the caller's `custom_types` (caller entries win). -/
def SFC.make (application_data : Value) (custom_types : List (String × TypeEntry))
    (ignore_unknown_types : Bool) : SFC :=
  ⟨application_data, [], dmerge DEFAULT_TYPES custom_types, ignore_unknown_types⟩

/-- Outcome of the loop body of `SFC.reload` on one raw line.  `errParse` is
turned into the `ValueError` carrying the 1-based line number by the loop. -/
inductive LineOutcome where
  | skip
  | set (k : String) (v : Value)
  | errParse
  | errE (e : PyErr)

/-- The registry-lookup block of the loop body: with
`ignore_unknown_types=True` it is `types.get(type_, NONE_TYPE)` followed by
tuple unpacking, otherwise a membership test raising
`TypeError("invalid config type: ...")` followed by indexing and unpacking. -/
def lookupTypeEntry (types : List (String × TypeEntry)) (ignore : Bool)
    (type_ : String) : Except PyErr (Ctor × Bool) :=
  if ignore then
    unpackEntry ((dget types type_).getD (TypeEntry.bare NONE_TYPE))
  else
    match dget types type_ with
    | Option.none => .error (.typeError ("invalid config type: " ++ type_))
    | some e => unpackEntry e

/-- One iteration of the loop body of `SFC.reload`, instrumented: the second
component is a ghost trace listing the `is_post_ready` flag of each type
constructor actually invoked by the iteration (empty or a singleton). -/
def lineStep (types : List (String × TypeEntry)) (ignore : Bool) (ad : Value)
    (post_ready : Bool) (rawLine : String) : LineOutcome × List Bool :=
  let cs := pyStripL rawLine.data
  if skipTest cs then (.skip, [])
  else
    match lineMatchCore cs with
    | Option.none => (.errParse, [])
    | some (name, type_, value) =>
      match lookupTypeEntry types ignore (String.mk type_) with
      | .error e => (.errE e, [])
      | .ok (type_constructor, is_post_ready) =>
        if !post_ready && is_post_ready then (.skip, [])
        else
          match type_constructor (String.mk value) ad with
          | .error e => (.errE e, [is_post_ready])
          | .ok r => (.set (String.mk name) (awaitValue r), [is_post_ready])

/-- The `for line_number, line in enumerate(lines)` loop of `SFC.reload`,
threading the line number and the store being built; on an exception the
store built so far is what `self.data` holds. -/
def reloadGo (types : List (String × TypeEntry)) (ignore : Bool) (ad : Value)
    (post_ready : Bool) :
    List String → Nat → List (String × Value) → List (String × Value) × Option PyErr
  | [], _, data => (data, Option.none)
  | l :: rest, n, data =>
    match (lineStep types ignore ad post_ready l).1 with
    | .skip => reloadGo types ignore ad post_ready rest (n + 1) data
    | .set k v => reloadGo types ignore ad post_ready rest (n + 1) (dset data k v)
    | .errParse => (data, some (.valueError ("error parsing line " ++ toString (n + 1))))
    | .errE e => (data, some e)

/-- The method `SFC.reload(post_ready=True)`.  It begins with
`self.data = {}` — the previous store is discarded before any line is read —
and then runs the line loop; the returned state holds whatever the loop built
(complete on success, partial on an exception), paired with the exception. -/
def SFC.reload (c : SFC) (lines : List String) (post_ready : Bool) : SFC × Option PyErr :=
  let r := reloadGo c.types c.ignore_unknown_types c.application_data post_ready lines 0 []
  (⟨c.application_data, r.1, c.types, c.ignore_unknown_types⟩, r.2)

/-- Ghost trace of `SFC.reload`: the `is_post_ready` flags of every
constructor invocation the loop performs, in order, stopping where the loop
stops. -/
def reloadInvokes (types : List (String × TypeEntry)) (ignore : Bool) (ad : Value)
    (post_ready : Bool) : List String → List Bool
  | [] => []
  | l :: rest =>
    match lineStep types ignore ad post_ready l with
    | (.skip, tr) => tr ++ reloadInvokes types ignore ad post_ready rest
    | (.set _ _, tr) => tr ++ reloadInvokes types ignore ad post_ready rest
    | (_, tr) => tr

/-- The method `SFC.get_value(key, fallback=None)`: fetch with the fallback as
dict-default, then raise `KeyError` when the retrieved value is `None` and the
fallback is `None`. -/
def SFC.get_value (c : SFC) (key : String) (fallback : Value) : Except PyErr Value :=
  let value := (dget c.data key).getD fallback
  if value = Value.none ∧ fallback = Value.none then
    .error (.keyError ("there is no config value for key " ++ key ++ " (right now)"))
  else .ok value

/-- A section accessor: the engine itself, or a `ConfigSection(parent, name)`
wrapping another accessor. -/
inductive ConfigSection where
  | root (c : SFC)
  | child (parent : ConfigSection) (name : String)

/-- The method `get_value` of `ConfigSection` (and of `SFC` at the root):
a child delegates upward with the key rewritten to `section + "." + key`. -/
def ConfigSection.get_value : ConfigSection → String → Value → Except PyErr Value
  | .root c, key, fb => SFC.get_value c key fb
  | .child p s, key, fb => ConfigSection.get_value p (s ++ "." ++ key) fb

/-- The method `get_section` shared by `SFC` and `ConfigSection`: build a
child accessor around the receiver. -/
def ConfigSection.get_section (p : ConfigSection) (s : String) : ConfigSection :=
  .child p s

/-- The method `SFC.get_section`: a `ConfigSection` rooted at the engine. -/
def SFC.get_section (c : SFC) (s : String) : ConfigSection :=
  .child (.root c) s

/-- Whether a raw line is skipped by the loop: blank after stripping, or its
first non-whitespace character is `#`. -/
def isSkippable (l : String) : Bool := skipTest (pyStripL l.data)

/-- Whether a raw line parses (is not skipped and matches the grammar) and
declares the key `k`. -/
def lineDeclares (l : String) (k : String) : Bool :=
  let cs := pyStripL l.data
  if skipTest cs then false
  else
    match lineMatchCore cs with
    | some (name, _, _) => String.mk name == k
    | Option.none => false

/-- Whether a raw line declares the key `k` with a type that the registry maps
to a well-formed entry whose `post_ready` flag is true. -/
def lineDeferredFor (types : List (String × TypeEntry)) (l : String) (k : String) : Bool :=
  let cs := pyStripL l.data
  if skipTest cs then false
  else
    match lineMatchCore cs with
    | some (name, type_, _) =>
      (String.mk name == k) &&
        (match dget types (String.mk type_) with
         | some (.tup _ true) => true
         | _ => false)
    | Option.none => false

/-- Whether the loop body on this line neither parses-fails nor raises. -/
def stepOkB (types : List (String × TypeEntry)) (ignore : Bool) (ad : Value)
    (post_ready : Bool) (l : String) : Bool :=
  match (lineStep types ignore ad post_ready l).1 with
  | .skip => true
  | .set _ _ => true
  | _ => false

/-- One step of the last-write-wins characterisation: the value held for `k`
after one more line, given the value `acc` held before it. -/
def lwStep (types : List (String × TypeEntry)) (ignore : Bool) (ad : Value)
    (post_ready : Bool) (k : String) (acc : Option Value) (l : String) : Option Value :=
  match (lineStep types ignore ad post_ready l).1 with
  | .set k2 v => if k2 = k then some v else acc
  | _ => acc

/-- The value the store holds at `k` after a successful pass over `lines`:
the resolved value of the last line that actually sets `k`. -/
def lastWin (types : List (String × TypeEntry)) (ignore : Bool) (ad : Value)
    (post_ready : Bool) (lines : List String) (k : String) : Option Value :=
  lines.foldl (lwStep types ignore ad post_ready k) Option.none

/-- True fact about association-list update, used throughout. -/
theorem dget_dset {α : Type} (d : List (String × α)) (k key : String) (v : α) :
    dget (dset d key v) k = if key = k then some v else dget d k := by
  induction d with
  | nil =>
    simp only [dset, dget]
  | cons p rest ih =>
    obtain ⟨a, b⟩ := p
    by_cases hak : a = key
    · subst hak
      by_cases h : a = k
      · subst h
        simp [dset, dget]
      · simp [dset, dget, h]
    · by_cases h : a = k
      · subst h
        simp [dset, dget, hak, Ne.symm hak]
      · simp [dset, dget, hak, h, ih]

/-- The store built by the loop does not depend on the running line number
(only the parse-error message does). -/
theorem reloadGo_data_nIrrel (ty : List (String × TypeEntry)) (ig : Bool) (ad : Value)
    (pr : Bool) (lines : List String) :
    ∀ (n n' : Nat) (d : List (String × Value)),
      (reloadGo ty ig ad pr lines n d).1 = (reloadGo ty ig ad pr lines n' d).1 := by
  induction lines with
  | nil => intro n n' d; rfl
  | cons l rest ih =>
    intro n n' d
    simp only [reloadGo]
    cases (lineStep ty ig ad pr l).1 with
    | skip => exact ih (n + 1) (n' + 1) d
    | set k v => exact ih (n + 1) (n' + 1) (dset d k v)
    | errParse => rfl
    | errE e => rfl

/-- A line that is blank after stripping, or whose first non-blank character
is `#`, makes the loop body a no-op. -/
theorem lineStep_skip_of_skippable (ty : List (String × TypeEntry)) (ig : Bool)
    (ad : Value) (pr : Bool) (l : String) (h : isSkippable l = true) :
    (lineStep ty ig ad pr l).1 = .skip := by
  unfold lineStep
  unfold isSkippable at h
  simp [h]

/-- Deleting a skippable line from anywhere in the file leaves the store the
loop builds unchanged (only parse-error messages can renumber). -/
theorem reloadGo_drop_skippable (ty : List (String × TypeEntry)) (ig : Bool)
    (ad : Value) (pr : Bool) (l : String) (h : isSkippable l = true)
    (post : List String) :
    ∀ (pre : List String) (n : Nat) (d : List (String × Value)),
      (reloadGo ty ig ad pr (pre ++ l :: post) n d).1 =
        (reloadGo ty ig ad pr (pre ++ post) n d).1 := by
  intro pre
  induction pre with
  | nil =>
    intro n d
    simp only [List.nil_append, reloadGo, lineStep_skip_of_skippable ty ig ad pr l h]
    exact reloadGo_data_nIrrel ty ig ad pr post (n + 1) n d
  | cons p rest ih =>
    intro n d
    simp only [List.cons_append, reloadGo]
    cases (lineStep ty ig ad pr p).1 with
    | skip => exact ih (n + 1) d
    | set k v => exact ih (n + 1) (dset d k v)
    | errParse => rfl
    | errE e => rfl

/-- A non-skippable line that the pattern rejects makes the loop body a
parse failure. -/
theorem lineStep_errParse_of_nomatch (ty : List (String × TypeEntry)) (ig : Bool)
    (ad : Value) (pr : Bool) (l : String) (h : isSkippable l = false)
    (hm : lineMatchCore (pyStripL l.data) = Option.none) :
    (lineStep ty ig ad pr l).1 = .errParse := by
  unfold lineStep
  unfold isSkippable at h
  simp [h, hm]

/-- If every line before the offending one neither raises nor fails to parse,
the loop stops at the offending line with a `ValueError` naming its 1-based
position (counted over all lines, skipped ones included). -/
theorem reloadGo_parse_error (ty : List (String × TypeEntry)) (ig : Bool)
    (ad : Value) (pr : Bool) (bad : String) (hs : isSkippable bad = false)
    (hm : lineMatchCore (pyStripL bad.data) = Option.none) (rest : List String) :
    ∀ (pre : List String), (∀ l ∈ pre, stepOkB ty ig ad pr l = true) →
      ∀ (n : Nat) (d : List (String × Value)),
        (reloadGo ty ig ad pr (pre ++ bad :: rest) n d).2 =
          some (.valueError ("error parsing line " ++ toString (n + pre.length + 1))) := by
  intro pre
  induction pre with
  | nil =>
    intro _ n d
    simp only [List.nil_append, reloadGo,
      lineStep_errParse_of_nomatch ty ig ad pr bad hs hm, List.length_nil]
  | cons p ps ih =>
    intro hok n d
    have hp : stepOkB ty ig ad pr p = true := hok p (List.mem_cons_self p ps)
    have hps : ∀ l ∈ ps, stepOkB ty ig ad pr l = true :=
      fun l hl => hok l (List.mem_cons_of_mem p hl)
    have harith : (n + 1) + ps.length + 1 = n + (p :: ps).length + 1 := by
      simp [List.length_cons]; omega
    simp only [List.cons_append, reloadGo]
    unfold stepOkB at hp
    cases hstep : (lineStep ty ig ad pr p).1 with
    | skip =>
      have h2 := ih hps (n + 1) d
      rw [harith] at h2
      exact h2
    | set k v =>
      have h2 := ih hps (n + 1) (dset d k v)
      rw [harith] at h2
      exact h2
    | errParse => rw [hstep] at hp; simp at hp
    | errE e => rw [hstep] at hp; simp at hp

/-- C1 (counterexample): a store is loaded successfully, then a reload of a
malformed file fails with a `ParseError` — and the previously-loaded entry is
gone: the store was cleared before parsing, so the failed reload does not
leave the previous store in place. -/
theorem c1_counterexample :
    dget (SFC.reload (SFC.make Value.none [] false) ["a : str = 1"] true).1.data "a" =
      some (Value.str "1") ∧
    (SFC.reload (SFC.reload (SFC.make Value.none [] false) ["a : str = 1"] true).1
        ["bad"] true).2 = some (.valueError "error parsing line 1") ∧
    dget (SFC.reload (SFC.reload (SFC.make Value.none [] false) ["a : str = 1"] true).1
        ["bad"] true).1.data "a" = Option.none := by
  refine ⟨by decide, by decide, by decide⟩

/-- C1 (amended): reload is destructive, not transactional — it clears the
store before reading the file, so the store (and the error) a reload produces
are completely independent of the store previously loaded; a failed reload
leaves behind the partial store built up to the failure, never the previous
store. -/
theorem c1_reload_independent_of_previous_store (ad : Value)
    (d d' : List (String × Value)) (ty : List (String × TypeEntry)) (ig : Bool)
    (lines : List String) (pr : Bool) :
    (SFC.reload ⟨ad, d, ty, ig⟩ lines pr).1.data =
      (SFC.reload ⟨ad, d', ty, ig⟩ lines pr).1.data ∧
    (SFC.reload ⟨ad, d, ty, ig⟩ lines pr).2 = (SFC.reload ⟨ad, d', ty, ig⟩ lines pr).2 :=
  ⟨rfl, rfl⟩

/-- C2 (code evaluated at the failing input): with `ignore_unknown_types=True`
a line with an unregistered type name does not resolve to an absent value —
`types.get(type_, NONE_TYPE)` returns the bare `NONE_TYPE` lambda and the
tuple unpacking raises `TypeError`, so the reload fails and stores nothing;
with `ignore_unknown_types=False` the same line raises the documented
"invalid config type" `TypeError`. -/
theorem c2_unknown_type_behaviour :
    ((SFC.reload (SFC.make Value.none [] true) ["k : Foo = v"] true).2 =
        some (.typeError "cannot unpack non-iterable function object") ∧
      dget (SFC.reload (SFC.make Value.none [] true) ["k : Foo = v"] true).1.data "k" =
        Option.none) ∧
    (SFC.reload (SFC.make Value.none [] false) ["k : Foo = v"] true).2 =
      some (.typeError "invalid config type: Foo") := by
  refine ⟨⟨by decide, by decide⟩, by decide⟩

/-- C7 (code evaluated at the failing input): a line declaring the built-in
type `None` crashes every reload, with or without deferred resolution — the
"None" registry entry is the bare `NONE_TYPE` lambda, not a
`(constructor, bool)` tuple, so the unpacking raises `TypeError` and nothing
is stored under the line's key. -/
theorem c7_none_type_crashes :
    (SFC.reload (SFC.make Value.none [] false) ["x : None = 1"] true).2 =
      some (.typeError "cannot unpack non-iterable function object") ∧
    (SFC.reload (SFC.make Value.none [] false) ["x : None = 1"] false).2 =
      some (.typeError "cannot unpack non-iterable function object") ∧
    dget (SFC.reload (SFC.make Value.none [] false) ["x : None = 1"] true).1.data "x" =
      Option.none := by
  refine ⟨by decide, by decide, by decide⟩

/-- C8: section accessors delegate upward by prepending their name plus a
dot, so chained `get_section` calls compose into the fully dotted key:
`get_section("a").get_section("b").get_value("c", fb)` is exactly
`get_value("a.b.c", fb)` on the engine. -/
theorem c8_section_delegation (c : SFC) (a b k : String) (fb : Value) :
    (((c.get_section a).get_section b).get_value k fb =
      SFC.get_value c (a ++ "." ++ b ++ "." ++ k) fb) ∧
    (∀ (p : ConfigSection) (s key : String) (fb' : Value),
      (ConfigSection.child p s).get_value key fb' =
        ConfigSection.get_value p (s ++ "." ++ key) fb') := by
  constructor
  · show SFC.get_value c (a ++ "." ++ (b ++ "." ++ k)) fb = _
    rw [← String.append_assoc, ← String.append_assoc]
  · intro p s key fb'
    rfl

/-- C9 (counterexample): a key that is present in the store but mapped to the
null value makes `get_value` with no fallback raise `KeyError`, although the
claim allows the error only for absent keys. -/
theorem c9_counterexample :
    dget (⟨Value.none, [("k", Value.none)], [], false⟩ : SFC).data "k" =
      some Value.none ∧
    SFC.get_value ⟨Value.none, [("k", Value.none)], [], false⟩ "k" Value.none =
      .error (.keyError "there is no config value for key k (right now)") := by
  refine ⟨by decide, by rfl⟩

/-- C9 (amended): `get_value(key, fallback)` raises `KeyNotFoundError` if and
only if no (non-null) fallback was supplied and the key is either absent from
the store or mapped to the null value; when a non-null fallback is supplied
and the key is absent, the fallback is returned without error.  The query is
a pure function of the store and cannot modify it. -/
theorem c9_get_value_contract (c : SFC) (key : String) (fb : Value) :
    (SFC.get_value c key fb =
        .error (.keyError ("there is no config value for key " ++ key ++ " (right now)")) ↔
      (dget c.data key = Option.none ∨ dget c.data key = some Value.none) ∧
        fb = Value.none) ∧
    (fb ≠ Value.none → dget c.data key = Option.none → SFC.get_value c key fb = .ok fb) := by
  constructor
  · unfold SFC.get_value
    cases h : dget c.data key with
    | none =>
      by_cases hfb : fb = Value.none <;> simp [h, hfb]
    | some v =>
      by_cases hv : v = Value.none <;> by_cases hfb : fb = Value.none <;>
        simp [h, hv, hfb]
  · intro hfb hnone
    unfold SFC.get_value
    simp [hnone, hfb]

/-- C9 (witness): with store containing only "a", a query for the absent key
"b" with the non-null fallback `5` returns `5` without error. -/
theorem c9_witness :
    SFC.get_value ⟨Value.none, [("a", Value.str "x")], [], false⟩ "b" (Value.int 5) =
      .ok (Value.int 5) :=
  (c9_get_value_contract ⟨Value.none, [("a", Value.str "x")], [], false⟩ "b"
    (Value.int 5)).2 (by decide) (by decide)

/-- C10: a key stored with the null value is indistinguishable, through
`get_value` without a fallback, from an absent key — presence is tested by
inspecting the retrieved value, so both raise the same `KeyError`. -/
theorem c10_null_value_indistinguishable (c c2 : SFC) (k : String)
    (h : dget c.data k = some Value.none) (h2 : dget c2.data k = Option.none) :
    SFC.get_value c k Value.none =
      .error (.keyError ("there is no config value for key " ++ k ++ " (right now)")) ∧
    SFC.get_value c k Value.none = SFC.get_value c2 k Value.none := by
  constructor
  · unfold SFC.get_value
    simp [h]
  · unfold SFC.get_value
    simp [h, h2]

/-- C10 (witness): the store holding "a" as null and the empty store answer
the fallback-less query for "a" identically, with the `KeyError`. -/
theorem c10_witness :
    SFC.get_value ⟨Value.none, [("a", Value.none)], [], false⟩ "a" Value.none =
      .error (.keyError "there is no config value for key a (right now)") ∧
    SFC.get_value ⟨Value.none, [("a", Value.none)], [], false⟩ "a" Value.none =
      SFC.get_value ⟨Value.none, [], [], false⟩ "a" Value.none :=
  c10_null_value_indistinguishable ⟨Value.none, [("a", Value.none)], [], false⟩
    ⟨Value.none, [], [], false⟩ "a" (by decide) (by decide)

/-- On a successful pass, the store's entry for `k` is the left fold of
`lwStep` over the lines: later lines overwrite earlier ones. -/
theorem reloadGo_success_get (ty : List (String × TypeEntry)) (ig : Bool) (ad : Value)
    (pr : Bool) (k : String) :
    ∀ (lines : List String) (n : Nat) (d : List (String × Value)),
      (reloadGo ty ig ad pr lines n d).2 = Option.none →
      dget (reloadGo ty ig ad pr lines n d).1 k =
        lines.foldl (lwStep ty ig ad pr k) (dget d k) := by
  intro lines
  induction lines with
  | nil => intro n d _; rfl
  | cons l rest ih =>
    intro n d hs
    rw [List.foldl_cons]
    simp only [reloadGo] at hs ⊢
    cases hstep : (lineStep ty ig ad pr l).1 with
    | skip =>
      rw [hstep] at hs
      have hlw : lwStep ty ig ad pr k (dget d k) l = dget d k := by
        unfold lwStep; rw [hstep]
      rw [hlw]
      exact ih (n + 1) d hs
    | set k2 v =>
      rw [hstep] at hs
      have hlw : lwStep ty ig ad pr k (dget d k) l =
          if k2 = k then some v else dget d k := by
        unfold lwStep; rw [hstep]
      rw [hlw]
      have h2 := ih (n + 1) (dset d k2 v) hs
      rw [dget_dset] at h2
      exact h2
    | errParse =>
      rw [hstep] at hs
      exact Option.noConfusion hs
    | errE e =>
      rw [hstep] at hs
      exact Option.noConfusion hs

/-- C4: after a successful reload the store maps every key to the resolved
value of the last line that set it — resolution is strictly sequential (each
line's constructor result is awaited before the next line is examined), so
this holds whatever the constructors do. -/
theorem c4_last_write_wins (c : SFC) (lines : List String) (pr : Bool) (k : String)
    (h : (SFC.reload c lines pr).2 = Option.none) :
    dget (SFC.reload c lines pr).1.data k =
      lastWin c.types c.ignore_unknown_types c.application_data pr lines k :=
  reloadGo_success_get c.types c.ignore_unknown_types c.application_data pr k lines 0 [] h

/-- C4 (witness): two `str` lines for the same key "x"; the reload succeeds
and the store holds the second line's value. -/
theorem c4_witness :
    (SFC.reload (SFC.make Value.none [] false) ["x : str = a", "x : str = b"] true).2 =
      Option.none ∧
    dget (SFC.reload (SFC.make Value.none [] false)
        ["x : str = a", "x : str = b"] true).1.data "x" =
      lastWin (SFC.make Value.none [] false).types false Value.none true
        ["x : str = a", "x : str = b"] "x" ∧
    lastWin (SFC.make Value.none [] false).types false Value.none true
      ["x : str = a", "x : str = b"] "x" = some (Value.str "b") :=
  ⟨by decide,
   c4_last_write_wins (SFC.make Value.none [] false) ["x : str = a", "x : str = b"]
     true "x" (by decide),
   by decide⟩

/-- C5: after trimming, a blank or `#` line contributes nothing to the store
(deleting it changes no store entry), and a non-skippable line rejected by the
pattern — the first problematic line of the file — aborts the reload with the
`ValueError` naming its 1-based position counted over all file lines. -/
theorem c5_line_parser_contract (c : SFC) (pr : Bool) :
    (∀ (pre post : List String) (l : String), isSkippable l = true →
      (SFC.reload c (pre ++ l :: post) pr).1.data =
        (SFC.reload c (pre ++ post) pr).1.data) ∧
    (∀ (pre rest : List String) (bad : String),
      (∀ l ∈ pre,
        stepOkB c.types c.ignore_unknown_types c.application_data pr l = true) →
      isSkippable bad = false →
      lineMatchCore (pyStripL bad.data) = Option.none →
      (SFC.reload c (pre ++ bad :: rest) pr).2 =
        some (.valueError ("error parsing line " ++ toString (pre.length + 1)))) := by
  constructor
  · intro pre post l h
    exact reloadGo_drop_skippable c.types c.ignore_unknown_types c.application_data
      pr l h post pre 0 []
  · intro pre rest bad hok hs hm
    have h := reloadGo_parse_error c.types c.ignore_unknown_types c.application_data
      pr bad hs hm rest pre hok 0 []
    rw [Nat.zero_add] at h
    exact h

/-- C5 (witness): deleting a comment line leaves the store unchanged, and a
file whose second line is malformed fails with the error naming line 2. -/
theorem c5_witness :
    (SFC.reload (SFC.make Value.none [] false) ["# c", "x : str = 1"] true).1.data =
      (SFC.reload (SFC.make Value.none [] false) ["x : str = 1"] true).1.data ∧
    (SFC.reload (SFC.make Value.none [] false) ["# c", "bad line"] true).2 =
      some (.valueError "error parsing line 2") := by
  constructor
  · exact (c5_line_parser_contract (SFC.make Value.none [] false) true).1
      [] ["x : str = 1"] "# c" (by decide)
  · exact (c5_line_parser_contract (SFC.make Value.none [] false) true).2
      ["# c"] [] "bad line" (by decide) (by decide) (by decide)

/-- With `post_ready=False`, any constructor the loop body invokes has
`is_post_ready=False`. -/
theorem lineStep_trace_all_false (ty : List (String × TypeEntry)) (ig : Bool)
    (ad : Value) (l : String) :
    ∀ b ∈ (lineStep ty ig ad false l).2, b = false := by
  intro b hb
  simp only [lineStep] at hb
  by_cases h1 : skipTest (pyStripL l.data) = true
  · simp [h1] at hb
  · cases h2 : lineMatchCore (pyStripL l.data) with
    | none => simp [h1, h2] at hb
    | some trip =>
      obtain ⟨name, tyn, val⟩ := trip
      cases h3 : lookupTypeEntry ty ig (String.mk tyn) with
      | error e => simp [h1, h2, h3] at hb
      | ok p =>
        obtain ⟨ctor, flag⟩ := p
        cases flag with
        | true => simp [h1, h2, h3] at hb
        | false =>
          cases h5 : ctor (String.mk val) ad with
          | error e => simpa [h1, h2, h3, h5] using hb
          | ok r => simpa [h1, h2, h3, h5] using hb

/-- With `post_ready=False`, every constructor invocation of the whole loop
carries `is_post_ready=False`. -/
theorem reloadInvokes_all_false (ty : List (String × TypeEntry)) (ig : Bool)
    (ad : Value) :
    ∀ (lines : List String) (b : Bool),
      b ∈ reloadInvokes ty ig ad false lines → b = false := by
  intro lines
  induction lines with
  | nil => intro b hb; simp [reloadInvokes] at hb
  | cons l rest ih =>
    intro b hb
    simp only [reloadInvokes] at hb
    cases hstep : lineStep ty ig ad false l with
    | mk outc tr =>
      rw [hstep] at hb
      have htr : ∀ b2 ∈ tr, b2 = false := by
        have h2 := lineStep_trace_all_false ty ig ad l
        rw [hstep] at h2
        exact fun b2 hb2 => h2 b2 hb2
      cases outc with
      | skip =>
        simp only [List.mem_append] at hb
        rcases hb with hb | hb
        · exact htr b hb
        · exact ih b hb
      | set k v =>
        simp only [List.mem_append] at hb
        rcases hb with hb | hb
        · exact htr b hb
        · exact ih b hb
      | errParse => exact htr b hb
      | errE e => exact htr b hb

/-- A loop iteration that stores a value under `k` came from a line that
declares `k`. -/
theorem lineStep_set_declares (ty : List (String × TypeEntry)) (ig : Bool)
    (ad : Value) (pr : Bool) (l k : String) (v : Value)
    (h : (lineStep ty ig ad pr l).1 = .set k v) :
    lineDeclares l k = true := by
  simp only [lineStep] at h
  unfold lineDeclares
  by_cases h1 : skipTest (pyStripL l.data) = true
  · simp [h1] at h
  · cases h2 : lineMatchCore (pyStripL l.data) with
    | none => simp [h1, h2] at h
    | some trip =>
      obtain ⟨name, tyn, val⟩ := trip
      cases h3 : lookupTypeEntry ty ig (String.mk tyn) with
      | error e => simp [h1, h2, h3] at h
      | ok p =>
        obtain ⟨ctor, flag⟩ := p
        by_cases h4 : (!pr && flag) = true
        · simp [h1, h2, h3, h4] at h
        · cases h5 : ctor (String.mk val) ad with
          | error e => simp [h1, h2, h3, h4, h5] at h
          | ok r =>
            simp [h1, h2, h3, h4, h5] at h
            simp [h1, h2, h.1]

/-- With `post_ready=False`, a loop iteration that stores a value under `k`
cannot come from a line whose registry entry is deferred. -/
theorem lineStep_set_not_deferred (ty : List (String × TypeEntry)) (ig : Bool)
    (ad : Value) (l k : String) (v : Value)
    (h : (lineStep ty ig ad false l).1 = .set k v) :
    lineDeferredFor ty l k = false := by
  simp only [lineStep] at h
  unfold lineDeferredFor
  by_cases h1 : skipTest (pyStripL l.data) = true
  · simp [h1] at h
  · cases h2 : lineMatchCore (pyStripL l.data) with
    | none => simp [h1, h2] at h
    | some trip =>
      obtain ⟨name, tyn, val⟩ := trip
      cases hdg : dget ty (String.mk tyn) with
      | none => simp [h1, h2, hdg]
      | some e =>
        cases e with
        | bare c2 => simp [h1, h2, hdg]
        | tup c2 fl =>
          cases fl with
          | false => simp [h1, h2, hdg]
          | true =>
            exfalso
            have h3 : lookupTypeEntry ty ig (String.mk tyn) = .ok (c2, true) := by
              unfold lookupTypeEntry
              by_cases hig : ig = true
              · simp [hig, hdg, unpackEntry]
              · simp [hig, hdg, unpackEntry]
            simp [h1, h2, h3] at h

/-- If every line of the file that declares `k` is deferred in the registry,
an immediate-only pass leaves `k` out of the store it builds. -/
theorem reloadGo_deferred_none (ty : List (String × TypeEntry)) (ig : Bool)
    (ad : Value) (k : String) :
    ∀ (lines : List String),
      (∀ l ∈ lines, lineDeclares l k = true → lineDeferredFor ty l k = true) →
      ∀ (n : Nat) (d : List (String × Value)), dget d k = Option.none →
        dget (reloadGo ty ig ad false lines n d).1 k = Option.none := by
  intro lines
  induction lines with
  | nil => intro _ n d hd; exact hd
  | cons l rest ih =>
    intro hcl n d hd
    have hrest : ∀ l2 ∈ rest, lineDeclares l2 k = true → lineDeferredFor ty l2 k = true :=
      fun l2 h2 => hcl l2 (List.mem_cons_of_mem l h2)
    simp only [reloadGo]
    cases hstep : (lineStep ty ig ad false l).1 with
    | skip => exact ih hrest (n + 1) d hd
    | set k2 v =>
      refine ih hrest (n + 1) (dset d k2 v) ?_
      rw [dget_dset]
      by_cases hk2 : k2 = k
      · exfalso
        subst hk2
        have hdecl := lineStep_set_declares ty ig ad false l k2 v hstep
        have hdef := hcl l (List.mem_cons_self l rest) hdecl
        have hnot := lineStep_set_not_deferred ty ig ad l k2 v hstep
        rw [hdef] at hnot
        exact Bool.noConfusion hnot
      · simp [hk2, hd]
    | errParse => exact hd
    | errE e => exact hd

/-- C3: an immediate-only reload (`post_ready=False`, the spec's
`include_deferred=false`) never invokes a constructor registered with the
deferred flag, and the store it produces has no entry for a key all of whose
declaring lines use deferred types. -/
theorem c3_deferred_exclusion (c : SFC) (lines : List String) (k : String) :
    (∀ b ∈ reloadInvokes c.types c.ignore_unknown_types c.application_data false lines,
      b = false) ∧
    ((∀ l ∈ lines, lineDeclares l k = true → lineDeferredFor c.types l k = true) →
      dget (SFC.reload c lines false).1.data k = Option.none) := by
  constructor
  · exact fun b hb => reloadInvokes_all_false c.types c.ignore_unknown_types
      c.application_data lines b hb
  · intro hcl
    exact reloadGo_deferred_none c.types c.ignore_unknown_types c.application_data
      k lines hcl 0 [] rfl

/-- C3 (witness): a file whose only declaring line for "g" uses the deferred
built-in `Guild`; the immediate-only reload invokes no deferred constructor
and stores nothing under "g". -/
theorem c3_witness :
    (∀ b ∈ reloadInvokes (SFC.make Value.none [] false).types false Value.none false
        ["g : Guild = 5", "# c"], b = false) ∧
    dget (SFC.reload (SFC.make Value.none [] false)
        ["g : Guild = 5", "# c"] false).1.data "g" = Option.none := by
  have h := c3_deferred_exclusion (SFC.make Value.none [] false)
    ["g : Guild = 5", "# c"] "g"
  exact ⟨h.1, h.2 (by decide)⟩

/-- Scanning for the first `=` passes over any prefix free of `=`. -/
theorem remAfterFirstEq_skip (a b : List Char) (h : ∀ c ∈ a, c ≠ '=') :
    remAfterFirstEq (a ++ b) = remAfterFirstEq b := by
  induction a with
  | nil => rfl
  | cons c cs ih =>
    have hc : ¬(c = '=') := h c (List.mem_cons_self c cs)
    simp only [List.cons_append, remAfterFirstEq, if_neg hc]
    exact ih fun c2 h2 => h c2 (List.mem_cons_of_mem c h2)

/-- Scanning for the first `=` passes over one non-`=` character. -/
theorem remAfterFirstEq_cons_ne (c : Char) (x : List Char) (h : c ≠ '=') :
    remAfterFirstEq (c :: x) = remAfterFirstEq x := by
  simp [remAfterFirstEq, h]

/-- Structure of a successful pattern match: the line splits into key,
whitespace, colon, whitespace, type name, whitespace, the equals sign, and a
tail whose leading whitespace is dropped to give the captured value. -/
theorem lineMatchCore_decomp (cs kl tl vl : List Char)
    (h : lineMatchCore cs = some (kl, tl, vl)) :
    ∃ w1 w2 w3 r5 : List Char,
      cs = kl ++ (w1 ++ ':' :: (w2 ++ (tl ++ (w3 ++ '=' :: r5)))) ∧
      (∀ c ∈ kl, keyChar c = true) ∧ (∀ c ∈ w1, pyIsSpace c = true) ∧
      (∀ c ∈ w2, pyIsSpace c = true) ∧ (∀ c ∈ tl, typeChar c = true) ∧
      (∀ c ∈ w3, pyIsSpace c = true) ∧ vl = r5.dropWhile pyIsSpace := by
  simp only [lineMatchCore] at h
  split at h
  · simp at h
  · split at h
    · rename_i r2 heq
      split at h
      · simp at h
      · split at h
        · rename_i r5 heq2
          split at h
          · simp at h
          · simp only [Option.some.injEq, Prod.mk.injEq] at h
            obtain ⟨hkl, htl, hvl⟩ := h
            refine ⟨(cs.dropWhile keyChar).takeWhile pyIsSpace,
              r2.takeWhile pyIsSpace,
              ((r2.dropWhile pyIsSpace).dropWhile typeChar).takeWhile pyIsSpace,
              r5, ?_, ?_, ?_, ?_, ?_, ?_, hvl.symm⟩
            · rw [← heq2, List.takeWhile_append_dropWhile, ← htl,
                List.takeWhile_append_dropWhile, List.takeWhile_append_dropWhile,
                ← heq, List.takeWhile_append_dropWhile, ← hkl,
                List.takeWhile_append_dropWhile]
            · intro c hc
              rw [← hkl] at hc
              exact List.mem_takeWhile_imp hc
            · intro c hc
              exact List.mem_takeWhile_imp hc
            · intro c hc
              exact List.mem_takeWhile_imp hc
            · intro c hc
              rw [← htl] at hc
              exact List.mem_takeWhile_imp hc
            · intro c hc
              exact List.mem_takeWhile_imp hc
        · simp at h
    · simp at h

/-- C6 (counterexample): for the line `k : str = a` the captured raw value is
`a`, but the remainder of the line after the first `=` is ` a` — the regex
group `\s*(.+)` strips the whitespace that follows the equals sign, so the
value is not exactly the remainder after the first `=`. -/
theorem c6_counterexample :
    lineMatch "k : str = a" = some ("k", "str", "a") ∧
    remAfterFirstEq ("k : str = a" : String).data = some (" a" : String).data ∧
    ("a" : String).data ≠ (" a" : String).data := by
  refine ⟨by decide, by decide, by decide⟩

/-- C6 (amended): for every line matching the grammar, the raw value passed
to the type constructor is the remainder of the line after the first `=` with
its leading whitespace removed; everything after that — internal `=` signs
included — is kept verbatim, with no unescaping. -/
theorem c6_amended_raw_value (s k t v : String)
    (h : lineMatch s = some (k, t, v)) :
    ∃ r : List Char, remAfterFirstEq s.data = some r ∧
      v.data = r.dropWhile pyIsSpace := by
  unfold lineMatch at h
  rw [Option.map_eq_some'] at h
  obtain ⟨⟨kl, tl, vl⟩, hcore, heq⟩ := h
  obtain ⟨hk2, ht2, hv2⟩ : String.mk kl = k ∧ String.mk tl = t ∧ String.mk vl = v := by
    simpa [Prod.ext_iff] using heq
  obtain ⟨w1, w2, w3, r5, hcs, hkl, hw1, hw2, htl, hw3, hvl⟩ :=
    lineMatchCore_decomp s.data kl tl vl hcore
  have hklne : ∀ c ∈ kl, c ≠ '=' := by
    intro c hc he
    have h2 := hkl c hc
    rw [he] at h2
    exact absurd h2 (by decide)
  have hw1ne : ∀ c ∈ w1, c ≠ '=' := by
    intro c hc he
    have h2 := hw1 c hc
    rw [he] at h2
    exact absurd h2 (by decide)
  have hw2ne : ∀ c ∈ w2, c ≠ '=' := by
    intro c hc he
    have h2 := hw2 c hc
    rw [he] at h2
    exact absurd h2 (by decide)
  have htlne : ∀ c ∈ tl, c ≠ '=' := by
    intro c hc he
    have h2 := htl c hc
    rw [he] at h2
    exact absurd h2 (by decide)
  have hw3ne : ∀ c ∈ w3, c ≠ '=' := by
    intro c hc he
    have h2 := hw3 c hc
    rw [he] at h2
    exact absurd h2 (by decide)
  refine ⟨r5, ?_, ?_⟩
  · rw [hcs, remAfterFirstEq_skip kl _ hklne, remAfterFirstEq_skip w1 _ hw1ne,
      remAfterFirstEq_cons_ne ':' _ (by decide), remAfterFirstEq_skip w2 _ hw2ne,
      remAfterFirstEq_skip tl _ htlne, remAfterFirstEq_skip w3 _ hw3ne]
    simp [remAfterFirstEq]
  · rw [← hv2]
    exact hvl

/-- C6 (witness): the line `k : str = a=b` parses with raw value `a=b` — the
internal `=` and everything after the first `=` (minus the leading blank) are
preserved. -/
theorem c6_witness :
    lineMatch "k : str = a=b" = some ("k", "str", "a=b") ∧
    ∃ r : List Char, remAfterFirstEq ("k : str = a=b" : String).data = some r ∧
      ("a=b" : String).data = r.dropWhile pyIsSpace :=
  ⟨by decide, c6_amended_raw_value "k : str = a=b" "k" "str" "a=b" (by decide)⟩
